import Mathlib

/-!
Verification of the cilium-egress-observer controller.

Shallow embedding of the controller's reconciliation engine:
* the Drift Reconciler (`UpdateOrCreateCiliumEgressGatewayPolicy`,
  `UpdateOrCreateService` in the controllers package),
* the Feedback Synchronizer (`SyncServiceWithCiliumEgressGatewayPolicy`
  in the util package),
* the Event Router (`findObjectsForHaegressGatewayPolicy`),
* the watch predicates of `SetupWithManager`, and
* the Background Sweeper tick logic of `backgroundPeriodicalCheck`.

The declarative store (Kubernetes API) is modelled as explicit lists of
typed objects; maps (labels, annotations, selectors) are association
lists; every store write performed by the code is recorded in an explicit
write log, and every emitted event in an event log.  Transient store-write
failures relevant to the Feedback Synchronizer's error handling are
modelled by a record of boolean outcomes (`SyncEnv`); reads come from the
modelled store itself.
-/

namespace HAEgress

/-- Controller-injected map keys and values.  Modelled from the spec: the
string constants live in the repository's `pkg` package, which is not
under `src/`; only their distinctness and usage sites matter here. -/
def haEgressNamespaceKey : String := "cilium.angeloxx.ch/egress-namespace"

/-- Modelled from the spec: the `pkg` constant naming the owning policy. -/
def haEgressNameKey : String := "cilium.angeloxx.ch/egress-name"

/-- Modelled from the spec: the service-proxy-name label key used to mark
the probe Service as not eligible for a competing announcement mechanism. -/
def proxyNameKey : String := "service.kubernetes.io/service-proxy-name"

/-- Modelled from the spec: the node-name label key used inside the
egress gateway node selector. -/
def nodeNameKey : String := "kubernetes.io/hostname"

/-- Modelled from the spec: the Service annotation written by the external
IP manager naming the node currently holding the assigned address. -/
def kubeVIPHostKey : String := "kube-vip.io/vipHost"

/-- Association-list lookup with the Go map default: a missing key reads
as the empty string (`m[k]` on a Go `map[string]string`). -/
def lookupD (m : List (String × String)) (k : String) : String :=
  match m.find? (fun kv => kv.fst == k) with
  | some kv => kv.snd
  | none => ""

/-- Association-list upsert, the Go `m[k] = v` map write. -/
def setKV : List (String × String) → String → String → List (String × String)
  | [], k, v => [(k, v)]
  | kv :: rest, k, v =>
    if kv.fst = k then (k, v) :: rest else kv :: setKV rest k v

/-- An owner reference as carried in object metadata.  Kubernetes owner
references carry kind, name and uid but no namespace; `controller` marks
the single controlling reference. -/
structure OwnerRef where
  kind : String
  name : String
  uid : String
  controller : Bool
deriving Repr, DecidableEq

/-- The egress gateway block of a CiliumEgressGatewayPolicy spec: the
node selector match labels and the egress IP. -/
structure EgressGatewaySpec where
  nodeSelector : List (String × String)
  egressIP : String
deriving Repr, DecidableEq

/-- A CiliumEgressGatewayPolicy spec.  The pod `Selectors` list (compared
with `reflect.DeepEqual` by the Drift Reconciler) is modelled opaquely as
a list of strings; only its equality is ever consulted. -/
structure CegpSpec where
  selectors : List String
  egressGateway : EgressGatewaySpec
deriving Repr, DecidableEq

/-- A HAEgressGatewayPolicy: the user-intent Policy.  Its spec has the
same shape as the derived CiliumEgressGatewayPolicy spec (the source
copies it wholesale with `Spec: haEgressGatewayPolicy.Spec`).  The status
block holds the last observed address, exit node and modification stamp. -/
structure Policy where
  name : String
  ns : String
  uid : String
  labels : List (String × String)
  annots : List (String × String)
  spec : CegpSpec
  statusIPAddress : String
  statusExitNode : String
  statusLastModified : Nat
deriving Repr, DecidableEq

/-- A CiliumEgressGatewayPolicy object.  Cluster-scoped: objects built by
this controller carry an empty `ns`, mirroring the empty `Namespace`
field of the Go object. -/
structure Cegp where
  name : String
  ns : String
  labels : List (String × String)
  annots : List (String × String)
  ownerRefs : List OwnerRef
  spec : CegpSpec
deriving Repr, DecidableEq

/-- A core Service object.  `ingress` is the list of load-balancer
ingress IPs of the status block (a subresource: preserved by spec
updates); `selector` is the spec selector. -/
structure Svc where
  name : String
  ns : String
  labels : List (String × String)
  annots : List (String × String)
  ownerRefs : List OwnerRef
  lbClass : String
  ports : List (String × String × Nat)
  svcType : String
  selector : List (String × String)
  ingress : List String
deriving Repr, DecidableEq

/-- The declarative store: CiliumEgressGatewayPolicies are cluster-scoped
(keyed by name); Services and Policies are namespaced. -/
structure Store where
  cegps : List Cegp
  svcs : List Svc
  policies : List Policy
deriving Repr, DecidableEq

def findCegp : List Cegp → String → Option Cegp
  | [], _ => none
  | c :: cs, n => if c.name = n then some c else findCegp cs n

/-- `client.Get` of a CiliumEgressGatewayPolicy by name. -/
def getCegp (st : Store) (n : String) : Option Cegp := findCegp st.cegps n

def findSvc : List Svc → String → String → Option Svc
  | [], _, _ => none
  | s :: ss, ns, n =>
    if s.name = n ∧ s.ns = ns then some s else findSvc ss ns n

/-- `client.Get` of a Service by namespaced name. -/
def getSvc (st : Store) (ns n : String) : Option Svc := findSvc st.svcs ns n

def findPolicy : List Policy → String → String → Option Policy
  | [], _, _ => none
  | p :: ps, ns, n =>
    if p.name = n ∧ p.ns = ns then some p else findPolicy ps ns n

/-- `client.Get` of a HAEgressGatewayPolicy by namespaced name. -/
def getPolicy (st : Store) (ns n : String) : Option Policy :=
  findPolicy st.policies ns n

def putCegpList : List Cegp → Cegp → List Cegp
  | [], c => [c]
  | x :: xs, c => if x.name = c.name then c :: xs else x :: putCegpList xs c

/-- Write a CiliumEgressGatewayPolicy into the store (create or update:
names are unique, so replace the entry of that name, else append). -/
def putCegp (st : Store) (c : Cegp) : Store :=
  { st with cegps := putCegpList st.cegps c }

def putSvcList : List Svc → Svc → List Svc
  | [], s => [s]
  | x :: xs, s =>
    if x.name = s.name ∧ x.ns = s.ns then s :: xs else x :: putSvcList xs s

/-- Write a Service into the store. -/
def putSvc (st : Store) (s : Svc) : Store :=
  { st with svcs := putSvcList st.svcs s }

def putPolicyList : List Policy → Policy → List Policy
  | [], p => [p]
  | x :: xs, p =>
    if x.name = p.name ∧ x.ns = p.ns then p :: xs else x :: putPolicyList xs p

/-- Write a HAEgressGatewayPolicy (status update) into the store. -/
def putPolicy (st : Store) (p : Policy) : Store :=
  { st with policies := putPolicyList st.policies p }

/-- The single controller owner reference that
`controllerutil.SetControllerReference` installs on a freshly built
derived object. -/
def ctrlRef (p : Policy) : OwnerRef :=
  { kind := "HAEgressGatewayPolicy", name := p.name, uid := p.uid
    controller := true }

/-- `metav1.GetControllerOf`: the first owner reference flagged as the
controller. -/
def getControllerOf (refs : List OwnerRef) : Option OwnerRef :=
  refs.find? (fun o => o.controller)

/-- `metav1.IsControlledBy obj owner`: the controlling reference exists
and its uid is the owner's uid. -/
def isControlledBy (refs : List OwnerRef) (ownerUID : String) : Bool :=
  match getControllerOf refs with
  | some o => o.uid == ownerUID
  | none => false

/-- Controller configuration: the flag-provided default egress namespace
and load-balancer class of `HAEgressGatewayPolicyReconciler`. -/
structure Ctrl where
  egressNamespace : String
  loadBalancerClass : String
deriving Repr, DecidableEq

/-- Target-namespace resolution: the Policy's namespace annotation if
non-empty, else the controller default (`serviceNamespace` computation at
the top of both UpdateOrCreate functions). -/
def targetNs (r : Ctrl) (p : Policy) : String :=
  if lookupD p.annots haEgressNamespaceKey = "" then r.egressNamespace
  else lookupD p.annots haEgressNamespaceKey

/-- The store writes the code can perform, one constructor per call
site: create/update of either derived object, a status update of the
Policy, and the merge patch of the gateway node selector. -/
inductive Write
  | createCegp (c : Cegp)
  | updateCegp (c : Cegp)
  | createSvc (s : Svc)
  | updateSvc (s : Svc)
  | statusPolicy (p : Policy)
  | patchCegp (n : String) (host : String)
deriving Repr, DecidableEq

/-- The recorder events the code can emit, one constructor per
`Recorder.Event` call site. -/
inductive Ev
  | createdCegp (n : String)
  | warnForeignCegp (n : String)
  | updatedCegp (n : String)
  | createdSvc (ns n : String)
  | warnForeignSvc (n : String)
  | cegpNodeUpdated (n host : String)
  | svcCausedUpdate (ns n : String)
deriving Repr, DecidableEq

/-- Outcomes of the fallible store calls inside the Feedback
Synchronizer, plus the wall-clock stamp used for `metav1.Now()`.  `true`
means the call succeeds against the store; reads additionally consult the
modelled store contents. -/
structure SyncEnv where
  refetchOk : Bool
  updateIPOk : Bool
  statusIPOk : Bool
  statusNodeOk : Bool
  patchOk : Bool
  now : Nat
deriving Repr, DecidableEq

/-- The (ctrl.Result, error) outcome of the Feedback Synchronizer
together with the resulting store and its write/event logs.  `requeue`
records whether the Result carries a RequeueAfter delay; `err` whether
the returned error is non-nil. -/
structure SyncOut where
  store : Store
  writes : List Write
  events : List Ev
  requeue : Bool
  err : Bool
deriving Repr, DecidableEq

/-- The zero-valued HAEgressGatewayPolicy the synchronizer keeps when the
derived object carries no matching owner reference (the Go variable is
declared and never filled in that case). -/
def zeroPolicy : Policy :=
  { name := "", ns := "", uid := "", labels := [], annots := []
    spec := { selectors := [], egressGateway := { nodeSelector := [], egressIP := "" } }
    statusIPAddress := "", statusExitNode := "", statusLastModified := 0 }

/-- Owner lookup at the top of `SyncServiceWithCiliumEgressGatewayPolicy`
(main.go lines 209-219): scan the owner references for kind
HAEgressGatewayPolicy and fetch that Policy at the CiliumEgressGatewayPolicy's
own namespace.  `none` is the early `return ctrl.Result{}, nil` taken when
that fetch fails; `some none` means no matching reference (the loop falls
through with the zero policy); `some (some p)` is a successful fetch. -/
def syncOwnerLookup (st : Store) (cegp : Cegp) : Option (Option Policy) :=
  match cegp.ownerRefs.find? (fun o => o.kind == "HAEgressGatewayPolicy") with
  | none => some none
  | some oref =>
    match getPolicy st cegp.ns oref.name with
    | none => none
    | some p => some (some p)

/-- Set the egress IP on a CiliumEgressGatewayPolicy
(`ciliumEgressGatewayPolicyUpdated.Spec.EgressGateway.EgressIP = ...`). -/
def setCegpIP (c : Cegp) (ip : String) : Cegp :=
  { c with spec := { c.spec with
      egressGateway := { c.spec.egressGateway with egressIP := ip } } }

/-- The egress IP of a CiliumEgressGatewayPolicy. -/
def ipOf (c : Cegp) : String := c.spec.egressGateway.egressIP

/-- The address write of the synchronizer (main.go lines 231-239): if the
freshly fetched copy already carries the Service's first ingress IP do
nothing; otherwise set it on the fresh copy and update, where a failed
update is the `none` outcome (`return Result{RequeueAfter}, nil`). -/
def ipWriteStep (env : SyncEnv) (st : Store) (fresh : Cegp) (ip : String) :
    Option (Store × List Write) :=
  if ipOf fresh = ip then some (st, [])
  else if env.updateIPOk then
    some (putCegp st (setCegpIP fresh ip), [Write.updateCegp (setCegpIP fresh ip)])
  else none

/-- The Policy status address write (main.go lines 240-246): best-effort,
a failure is only logged; the in-memory policy keeps the new fields
either way. -/
def ipStatusStep (env : SyncEnv) (st : Store) (pol : Policy) (ip : String) :
    Store × Policy × List Write :=
  if pol.statusIPAddress = ip then (st, pol, [])
  else
    let pol2 := { pol with statusIPAddress := ip, statusLastModified := env.now }
    if env.statusIPOk then (putPolicy st pol2, pol2, [Write.statusPolicy pol2])
    else (st, pol2, [])

/-- The ingress block of the synchronizer (main.go lines 224-247),
entered only when the Service reports at least one ingress address:
re-fetch the CiliumEgressGatewayPolicy (a failed re-fetch, including
not-found, is `return Result{RequeueAfter}, err`), then the address
write, then the status address write.  `Sum.inl` is an early return. -/
def syncIngress (env : SyncEnv) (st : Store) (svc : Svc) (cegp : Cegp)
    (pol : Policy) : SyncOut ⊕ (Store × Policy × List Write) :=
  if svc.ingress.isEmpty then .inr (st, pol, [])
  else
    match (if env.refetchOk then getCegp st cegp.name else none) with
    | none => .inl ⟨st, [], [], true, true⟩
    | some fresh =>
      match ipWriteStep env st fresh (svc.ingress.headD "") with
      | none => .inl ⟨st, [], [], true, false⟩
      | some (st1, w1) =>
        match ipStatusStep env st1 pol (svc.ingress.headD "") with
        | (st2, pol2, w2) => .inr (st2, pol2, w1 ++ w2)

/-- The Policy status exit-node write (main.go lines 254-260):
best-effort like the address status write. -/
def nodeStatusStep (env : SyncEnv) (st : Store) (pol : Policy)
    (currentHost : String) (w : List Write) : Store × List Write :=
  if pol.statusExitNode = currentHost then (st, w)
  else
    let pol2 := { pol with statusExitNode := currentHost
                           statusLastModified := env.now }
    if env.statusNodeOk then (putPolicy st pol2, w ++ [Write.statusPolicy pol2])
    else (st, w)

/-- The node-selector merge patch applied to one object: upsert the
single node-name key, leaving every other match label and every other
field in place (JSON merge-patch semantics of the `client.RawPatch` at
main.go line 270). -/
def patchCegpObj (n host : String) (c : Cegp) : Cegp :=
  if c.name = n then
    { c with spec := { c.spec with
        egressGateway := { c.spec.egressGateway with
          nodeSelector := setKV c.spec.egressGateway.nodeSelector nodeNameKey host } } }
  else c

/-- Apply the node-selector merge patch to the stored object of that
name. -/
def patchCegpInStore (st : Store) (n host : String) : Store :=
  { st with cegps := st.cegps.map (patchCegpObj n host) }

/-- The tail of the synchronizer (main.go lines 249-289): stop when the
Service carries no current-host annotation; otherwise write the status
exit node, stop when the policy host already matches, else merge-patch
the node selector.  A failed patch is `return Result{RequeueAfter}, err`;
a successful one emits the matched pair of events. -/
def syncTail (env : SyncEnv) (st : Store) (svc : Svc) (cegp : Cegp)
    (pol : Policy) (policyHost currentHost : String) (w : List Write) : SyncOut :=
  if currentHost = "" then ⟨st, w, [], false, false⟩
  else
    let s1 := nodeStatusStep env st pol currentHost w
    if policyHost = currentHost then ⟨s1.1, s1.2, [], false, false⟩
    else if env.patchOk then
      ⟨patchCegpInStore s1.1 cegp.name currentHost,
       s1.2 ++ [Write.patchCegp cegp.name currentHost],
       [Ev.cegpNodeUpdated cegp.name currentHost,
        Ev.svcCausedUpdate svc.ns svc.name],
       false, false⟩
    else ⟨s1.1, s1.2, [], true, true⟩

/-- `SyncServiceWithCiliumEgressGatewayPolicy` (main.go lines 206-290):
owner lookup, then the ingress block, then the tail.  `policyHost` is
read from the node selector of the (possibly stale) argument object, and
`currentHost` from the Service's kube-vip host annotation. -/
def syncService (env : SyncEnv) (st : Store) (svc : Svc) (cegp : Cegp) : SyncOut :=
  match syncOwnerLookup st cegp with
  | none => ⟨st, [], [], false, false⟩
  | some polOpt =>
    let pol := polOpt.getD zeroPolicy
    let policyHost := lookupD cegp.spec.egressGateway.nodeSelector nodeNameKey
    let currentHost := lookupD svc.annots kubeVIPHostKey
    match syncIngress env st svc cegp pol with
    | .inl out => out
    | .inr (st1, pol1, w1) =>
      syncTail env st1 svc cegp pol1 policyHost currentHost w1

/-- Outcome of one Drift Reconciler step: resulting store, write and
event logs, and whether a non-nil error was returned. -/
structure RecRes where
  store : Store
  writes : List Write
  events : List Ev
  err : Bool
deriving Repr, DecidableEq

/-- The desired CiliumEgressGatewayPolicy built by
`UpdateOrCreateCiliumEgressGatewayPolicy` (part_000 lines 115-129):
deterministic name `<target namespace>-<policy name>`, labels,
annotations and spec copied from the Policy, the controller owner
reference installed; cluster-scoped, so its namespace is empty. -/
def desiredCegp (r : Ctrl) (p : Policy) : Cegp :=
  { name := targetNs r p ++ "-" ++ p.name
    ns := ""
    labels := p.labels
    annots := p.annots
    ownerRefs := [ctrlRef p]
    spec := p.spec }

/-- `UpdateOrCreateCiliumEgressGatewayPolicy` (part_000 lines 102-189).
Not found: create the desired object, emit the Created event, and when a
Service for this Policy already exists in the target namespace run the
Feedback Synchronizer against it and the fresh object.  Found but not
controlled by this Policy: emit the warning and return nil without
touching it.  Found and controlled: update only the pod selectors when
they differ (writing back the fetched object), emitting the Updated
event.  Store writes themselves are modelled as succeeding; the
synchronizer's error is propagated. -/
def updateOrCreateCegp (r : Ctrl) (env : SyncEnv) (st : Store) (p : Policy) : RecRes :=
  match getCegp st (desiredCegp r p).name with
  | none =>
    let st1 := putCegp st (desiredCegp r p)
    match getSvc st1 (targetNs r p) p.name with
    | none =>
      ⟨st1, [Write.createCegp (desiredCegp r p)],
       [Ev.createdCegp (desiredCegp r p).name], false⟩
    | some svc =>
      let so := syncService env st1 svc (desiredCegp r p)
      ⟨so.store, Write.createCegp (desiredCegp r p) :: so.writes,
       Ev.createdCegp (desiredCegp r p).name :: so.events, so.err⟩
  | some ex =>
    if !(isControlledBy ex.ownerRefs p.uid) then
      ⟨st, [], [Ev.warnForeignCegp ex.name], false⟩
    else if ex.spec.selectors = (desiredCegp r p).spec.selectors then
      ⟨st, [], [], false⟩
    else
      let ex2 := { ex with spec := { ex.spec with
                     selectors := (desiredCegp r p).spec.selectors } }
      ⟨putCegp st ex2, [Write.updateCegp ex2], [Ev.updatedCegp ex2.name], false⟩

/-- The desired Service built by `UpdateOrCreateService` (part_000 lines
205-244): the Policy's name in the target namespace, labels and
annotations copied then the three controller labels injected, the fixed
placeholder port, the configured load-balancer class, the
matching-nothing selector recording the owning namespace and name, and
the controller owner reference. -/
def desiredSvc (r : Ctrl) (p : Policy) : Svc :=
  { name := p.name
    ns := targetNs r p
    labels := setKV (setKV (setKV p.labels proxyNameKey
        "kubevip-managed-by-cilium-haegess") haEgressNamespaceKey (targetNs r p))
        haEgressNameKey p.name
    annots := p.annots
    ownerRefs := [ctrlRef p]
    lbClass := r.loadBalancerClass
    ports := [("nope", "TCP", 65534)]
    svcType := "LoadBalancer"
    selector := [(haEgressNamespaceKey, targetNs r p), (haEgressNameKey, p.name)]
    ingress := [] }

/-- `UpdateOrCreateService` (part_000 lines 191-282).  Not found: create
the desired Service and emit the Created event.  Found but not
controlled: emit the warning, return nil, touch nothing.  Found and
controlled: when the selector differs, `r.Update(ctx, service)` writes
the whole freshly built desired object (the status block, a subresource,
survives); no event is emitted on that branch. -/
def updateOrCreateSvc (r : Ctrl) (st : Store) (p : Policy) : RecRes :=
  match getSvc st (desiredSvc r p).ns (desiredSvc r p).name with
  | none =>
    ⟨putSvc st (desiredSvc r p), [Write.createSvc (desiredSvc r p)],
     [Ev.createdSvc (desiredSvc r p).ns (desiredSvc r p).name], false⟩
  | some found =>
    if !(isControlledBy found.ownerRefs p.uid) then
      ⟨st, [], [Ev.warnForeignSvc found.name], false⟩
    else if found.selector = (desiredSvc r p).selector then
      ⟨st, [], [], false⟩
    else
      let written := { desiredSvc r p with ingress := found.ingress }
      ⟨putSvc st written, [Write.updateSvc written], [], false⟩

/-- The body of `Reconcile` after the Policy fetch (part_000 lines
88-99): the CiliumEgressGatewayPolicy step, then on success the Service
step. -/
def reconcilePolicy (r : Ctrl) (env : SyncEnv) (st : Store) (p : Policy) : RecRes :=
  let a := updateOrCreateCegp r env st p
  if a.err then a
  else
    let b := updateOrCreateSvc r a.store p
    ⟨b.store, a.writes ++ b.writes, a.events ++ b.events, b.err⟩

/-- A reconcile request as emitted by the Event Router. -/
structure Req where
  name : String
  ns : String
deriving Repr, DecidableEq

/-- `findObjectsForHaegressGatewayPolicy` (part_000 lines 284-300): fold
over the watched object's owner references, appending one request per
reference of kind HAEgressGatewayPolicy, addressed at the reference's
name and the watched object's own namespace. -/
def findObjectsForHaegressGatewayPolicy (refs : List OwnerRef)
    (objNs : String) : List Req :=
  refs.foldl (fun acc o =>
    if o.kind = "HAEgressGatewayPolicy" then acc ++ [⟨o.name, objNs⟩] else acc) []

/-- The four watch event kinds distinguished by `predicate.Funcs`. -/
inductive WatchEventKind
  | create
  | update
  | delete
  | generic
deriving Repr, DecidableEq

/-- The Service watch predicate of `SetupWithManager` (part_000 lines
364-377): only deletes pass. -/
def serviceWatchPred : WatchEventKind → Bool
  | .delete => true
  | .create => false
  | .update => false
  | .generic => false

/-- The CiliumEgressGatewayPolicy watch predicate of `SetupWithManager`
(part_000 lines 382-395): only deletes pass. -/
def cegpWatchPred : WatchEventKind → Bool
  | .delete => true
  | .create => false
  | .update => false
  | .generic => false

/-- Outcome of one Background Sweeper tick: whether the Policy list was
read, which Policies the tick re-reconciles, and the activity marker
after the tick. -/
structure TickRes where
  listed : Bool
  reconciled : List Policy
  marker : Option Nat
deriving Repr, DecidableEq

/-- One tick of `backgroundPeriodicalCheck` (part_000 lines 311-344),
times in milliseconds.  No marker recorded yet: store the current time
and skip.  Marker less than `seconds / 2` (Go integer division) seconds
old: skip without any store read.  Otherwise list every Policy and run
the Drift Reconciler over each. -/
def sweepTick (seconds : Nat) (st : Store) (marker : Option Nat)
    (nowMs : Nat) : TickRes :=
  match marker with
  | none => ⟨false, [], some nowMs⟩
  | some t =>
    if nowMs - t < seconds / 2 * 1000 then ⟨false, [], some t⟩
    else ⟨true, st.policies, some t⟩

/-! Concrete instances used by witnesses and counterexamples. -/

/-- Controller configuration with the flag defaults of main.go. -/
def exCtrl : Ctrl :=
  { egressNamespace := "egress-system"
    loadBalancerClass := "kube-vip.io/kube-vip-class" }

/-- Synchronizer environment in which every store call succeeds. -/
def exEnv : SyncEnv :=
  { refetchOk := true, updateIPOk := true, statusIPOk := true
    statusNodeOk := true, patchOk := true, now := 7 }

/-- A Policy named web in namespace default with no annotations. -/
def exPolicy : Policy :=
  { name := "web", ns := "default", uid := "u1", labels := [], annots := []
    spec := { selectors := ["sel"]
              egressGateway := { nodeSelector := [(nodeNameKey, "")], egressIP := "" } }
    statusIPAddress := "", statusExitNode := "", statusLastModified := 0 }

/-- The derived CiliumEgressGatewayPolicy of `exPolicy`, as the
controller builds it. -/
def exCegpOwned : Cegp := desiredCegp exCtrl exPolicy

/-- The derived Service of `exPolicy`, as the controller builds it. -/
def exSvcOwned : Svc := desiredSvc exCtrl exPolicy

/-- A store already holding both derived objects in their desired,
controller-owned state. -/
def exStoreConverged : Store :=
  { cegps := [exCegpOwned], svcs := [exSvcOwned], policies := [exPolicy] }

/-! Helper lemmas about the store and the reconciler branches. -/

lemma findCegp_name {l : List Cegp} {n : String} {c : Cegp}
    (h : findCegp l n = some c) : c.name = n := by
  induction l with
  | nil => simp [findCegp] at h
  | cons x xs ih =>
    unfold findCegp at h
    split at h
    · cases h; assumption
    · exact ih h

lemma getCegp_name {st : Store} {n : String} {c : Cegp}
    (h : getCegp st n = some c) : c.name = n :=
  findCegp_name h

lemma findCegp_putCegpList_self (l : List Cegp) (c : Cegp) :
    findCegp (putCegpList l c) c.name = some c := by
  induction l with
  | nil => simp [putCegpList, findCegp]
  | cons x xs ih =>
    unfold putCegpList
    split
    · simp [findCegp]
    · unfold findCegp
      split
      · simp_all
      · exact ih

lemma getCegp_putCegp_self (st : Store) (c : Cegp) :
    getCegp (putCegp st c) c.name = some c :=
  findCegp_putCegpList_self st.cegps c

lemma getCegp_putPolicy (st : Store) (p : Policy) (n : String) :
    getCegp (putPolicy st p) n = getCegp st n := rfl

lemma getSvc_putCegp (st : Store) (c : Cegp) (ns n : String) :
    getSvc (putCegp st c) ns n = getSvc st ns n := rfl

/-- The CiliumEgressGatewayPolicy no-write branch: found, controlled,
pod selectors already equal. -/
lemma updateOrCreateCegp_noop (r : Ctrl) (env : SyncEnv) (st : Store)
    (p : Policy) (e : Cegp)
    (hc : getCegp st (desiredCegp r p).name = some e)
    (hown : isControlledBy e.ownerRefs p.uid = true)
    (hsel : e.spec.selectors = p.spec.selectors) :
    updateOrCreateCegp r env st p = ⟨st, [], [], false⟩ := by
  unfold updateOrCreateCegp
  rw [hc]
  simp [hown, hsel, desiredCegp]

/-- The Service no-write branch: found, controlled, selector already
equal. -/
lemma updateOrCreateSvc_noop (r : Ctrl) (st : Store) (p : Policy) (s : Svc)
    (hs : getSvc st (desiredSvc r p).ns (desiredSvc r p).name = some s)
    (hown : isControlledBy s.ownerRefs p.uid = true)
    (hsel : s.selector = (desiredSvc r p).selector) :
    updateOrCreateSvc r st p = ⟨st, [], [], false⟩ := by
  unfold updateOrCreateSvc
  rw [hs]
  simp [hown, hsel]

lemma reconcilePolicy_noop (r : Ctrl) (env : SyncEnv) (st : Store) (p : Policy)
    (e : Cegp) (s : Svc)
    (hc : getCegp st (desiredCegp r p).name = some e)
    (hce : isControlledBy e.ownerRefs p.uid = true)
    (hcs : e.spec.selectors = p.spec.selectors)
    (hs : getSvc st (desiredSvc r p).ns (desiredSvc r p).name = some s)
    (hse : isControlledBy s.ownerRefs p.uid = true)
    (hss : s.selector = (desiredSvc r p).selector) :
    reconcilePolicy r env st p = ⟨st, [], [], false⟩ := by
  unfold reconcilePolicy
  rw [updateOrCreateCegp_noop r env st p e hc hce hcs]
  simp [updateOrCreateSvc_noop r st p s hs hse hss]

/-- C1.  For every Policy and every store state in which both derived
objects already exist, are owned by the Policy, and match the desired
state, running the Drift Reconciler a second time immediately after a
first run, with no external change between the runs, performs zero
create, update, or patch calls against the store on the second run (and
already on the first). -/
theorem drift_reconciler_idempotent (r : Ctrl) (env : SyncEnv) (st : Store)
    (p : Policy) (e : Cegp) (s : Svc)
    (hc : getCegp st (desiredCegp r p).name = some e)
    (hce : isControlledBy e.ownerRefs p.uid = true)
    (hcs : e.spec.selectors = p.spec.selectors)
    (hs : getSvc st (desiredSvc r p).ns (desiredSvc r p).name = some s)
    (hse : isControlledBy s.ownerRefs p.uid = true)
    (hss : s.selector = (desiredSvc r p).selector) :
    (reconcilePolicy r env st p).writes = [] ∧
    (reconcilePolicy r env (reconcilePolicy r env st p).store p).writes = [] := by
  have h1 := reconcilePolicy_noop r env st p e s hc hce hcs hs hse hss
  constructor
  · rw [h1]
  · have hst : (reconcilePolicy r env st p).store = st := by rw [h1]
    rw [hst, h1]

/-- C1 witness: the converged example store. -/
theorem drift_reconciler_idempotent_witness :
    (reconcilePolicy exCtrl exEnv exStoreConverged exPolicy).writes = [] ∧
    (reconcilePolicy exCtrl exEnv
      (reconcilePolicy exCtrl exEnv exStoreConverged exPolicy).store exPolicy).writes = [] :=
  drift_reconciler_idempotent exCtrl exEnv exStoreConverged exPolicy
    exCegpOwned exSvcOwned (by decide) (by decide) (by decide)
    (by decide) (by decide) (by decide)

/-- C2.  A derived object found under the expected name but not
controlled by the Policy being reconciled is never written: the
reconciler leaves the whole store untouched, records the AlreadyExists
warning event on the Policy, and returns success (nil error) for that
step. -/
theorem ownership_safety_no_write (r : Ctrl) (env : SyncEnv) (st : Store)
    (p : Policy) :
    (∀ e, getCegp st (desiredCegp r p).name = some e →
      isControlledBy e.ownerRefs p.uid = false →
      updateOrCreateCegp r env st p
        = ⟨st, [], [Ev.warnForeignCegp e.name], false⟩) ∧
    (∀ s, getSvc st (desiredSvc r p).ns (desiredSvc r p).name = some s →
      isControlledBy s.ownerRefs p.uid = false →
      updateOrCreateSvc r st p
        = ⟨st, [], [Ev.warnForeignSvc s.name], false⟩) := by
  constructor
  · intro e hc hf
    unfold updateOrCreateCegp
    rw [hc]
    simp [hf]
  · intro s hs hf
    unfold updateOrCreateSvc
    rw [hs]
    simp [hf]

/-- A CiliumEgressGatewayPolicy of the expected name owned by someone
else. -/
def exForeignCegp : Cegp :=
  { desiredCegp exCtrl exPolicy with
      ownerRefs := [⟨"HAEgressGatewayPolicy", "web", "someone-else", true⟩] }

/-- A Service of the expected name owned by someone else. -/
def exForeignSvc : Svc :=
  { desiredSvc exCtrl exPolicy with
      ownerRefs := [⟨"HAEgressGatewayPolicy", "web", "someone-else", true⟩] }

/-- A store in which both derived objects exist but are foreign. -/
def exStoreForeign : Store :=
  { cegps := [exForeignCegp], svcs := [exForeignSvc], policies := [exPolicy] }

/-- C2 witness: both foreign objects in the example store are left
untouched with only a warning event. -/
theorem ownership_safety_no_write_witness :
    updateOrCreateCegp exCtrl exEnv exStoreForeign exPolicy
      = ⟨exStoreForeign, [], [Ev.warnForeignCegp exForeignCegp.name], false⟩ ∧
    updateOrCreateSvc exCtrl exStoreForeign exPolicy
      = ⟨exStoreForeign, [], [Ev.warnForeignSvc exForeignSvc.name], false⟩ :=
  ⟨(ownership_safety_no_write exCtrl exEnv exStoreForeign exPolicy).1
      exForeignCegp (by decide) (by decide),
   (ownership_safety_no_write exCtrl exEnv exStoreForeign exPolicy).2
      exForeignSvc (by decide) (by decide)⟩

/-! Lemmas about the Feedback Synchronizer's write log. -/

lemma syncService_owner_none (env : SyncEnv) (st : Store) (svc : Svc)
    (cegp : Cegp) (h : syncOwnerLookup st cegp = none) :
    syncService env st svc cegp = ⟨st, [], [], false, false⟩ := by
  unfold syncService
  rw [h]

lemma nodeStatusStep_mem (env : SyncEnv) (st : Store) (pol : Policy)
    (ch : String) (w : List Write) (x : Write)
    (h : x ∈ (nodeStatusStep env st pol ch w).2) :
    x ∈ w ∨ ∃ q, x = Write.statusPolicy q := by
  unfold nodeStatusStep at h
  split at h
  · exact Or.inl h
  · split at h
    · rcases List.mem_append.mp h with h | h
      · exact Or.inl h
      · exact Or.inr ⟨_, by simpa using h⟩
    · exact Or.inl h

lemma nodeStatusStep_mono (env : SyncEnv) (st : Store) (pol : Policy)
    (ch : String) (w : List Write) (x : Write) (h : x ∈ w) :
    x ∈ (nodeStatusStep env st pol ch w).2 := by
  unfold nodeStatusStep
  split
  · exact h
  · split
    · exact List.mem_append.mpr (Or.inl h)
    · exact h

lemma syncTail_mem_writes (env : SyncEnv) (st : Store) (svc : Svc)
    (cegp : Cegp) (pol : Policy) (ph ch : String) (w : List Write) (x : Write)
    (h : x ∈ (syncTail env st svc cegp pol ph ch w).writes) :
    x ∈ w ∨ (∃ q, x = Write.statusPolicy q) ∨ ∃ n hn, x = Write.patchCegp n hn := by
  simp only [syncTail] at h
  split at h
  · exact Or.inl h
  · split at h
    · rcases nodeStatusStep_mem env st pol ch w x h with h | h
      · exact Or.inl h
      · exact Or.inr (Or.inl h)
    · split at h
      · rcases List.mem_append.mp h with h | h
        · rcases nodeStatusStep_mem env st pol ch w x h with h | h
          · exact Or.inl h
          · exact Or.inr (Or.inl h)
        · exact Or.inr (Or.inr ⟨_, _, by simpa using h⟩)
      · rcases nodeStatusStep_mem env st pol ch w x h with h | h
        · exact Or.inl h
        · exact Or.inr (Or.inl h)

lemma syncTail_writes_mono (env : SyncEnv) (st : Store) (svc : Svc)
    (cegp : Cegp) (pol : Policy) (ph ch : String) (w : List Write) (x : Write)
    (h : x ∈ w) :
    x ∈ (syncTail env st svc cegp pol ph ch w).writes := by
  simp only [syncTail]
  split
  · exact h
  · split
    · exact nodeStatusStep_mono env st pol ch w x h
    · split
      · exact List.mem_append.mpr (Or.inl (nodeStatusStep_mono env st pol ch w x h))
      · exact nodeStatusStep_mono env st pol ch w x h

lemma ipStatusStep_mem (env : SyncEnv) (st : Store) (pol : Policy)
    (ip : String) (x : Write) (h : x ∈ (ipStatusStep env st pol ip).2.2) :
    ∃ q, x = Write.statusPolicy q := by
  unfold ipStatusStep at h
  split at h
  · simp at h
  · split at h
    · exact ⟨_, by simpa using h⟩
    · simp at h

/-- C3.  In the Feedback Synchronizer, whenever the Service reports at
least one ingress address (and the owner-policy fetch did not already
end the sync), the CiliumEgressGatewayPolicy is re-fetched fresh from
the store before any address write.  If the fresh copy's address already
equals the Service's first ingress address, no address update is
performed at all; otherwise the address is set on the fresh copy and
that object is written back; and a failure of that write-back returns a
requeue-after-backoff outcome with a nil error, with nothing written. -/
theorem sync_stale_read_guard (env : SyncEnv) (st : Store) (svc : Svc)
    (cegp : Cegp) :
    (syncOwnerLookup st cegp = none →
      syncService env st svc cegp = ⟨st, [], [], false, false⟩) ∧
    (∀ po fresh, syncOwnerLookup st cegp = some po → svc.ingress ≠ [] →
      env.refetchOk = true → getCegp st cegp.name = some fresh →
      ((ipOf fresh = svc.ingress.headD "" →
         ∀ c, Write.updateCegp c ∉ (syncService env st svc cegp).writes) ∧
       (ipOf fresh ≠ svc.ingress.headD "" → env.updateIPOk = true →
         Write.updateCegp (setCegpIP fresh (svc.ingress.headD ""))
           ∈ (syncService env st svc cegp).writes) ∧
       (ipOf fresh ≠ svc.ingress.headD "" → env.updateIPOk = false →
         syncService env st svc cegp = ⟨st, [], [], true, false⟩))) := by
  constructor
  · exact syncService_owner_none env st svc cegp
  · intro po fresh hpo hing hre hfr
    have hne : svc.ingress.isEmpty = false := by
      cases hsv : svc.ingress with
      | nil => exact absurd hsv hing
      | cons a t => rfl
    refine ⟨?_, ?_, ?_⟩
    · intro heq c hmem
      simp only [syncService, hpo] at hmem
      simp only [syncIngress, hne, Bool.false_eq_true, if_false, hre, if_true, hfr] at hmem
      simp only [ipWriteStep, heq, if_true] at hmem
      rcases syncTail_mem_writes _ _ _ _ _ _ _ _ _ hmem with h | h | h
      · rcases List.mem_append.mp h with h | h
        · simp at h
        · rcases ipStatusStep_mem _ _ _ _ _ h with ⟨q, hq⟩
          simp at hq
      · rcases h with ⟨q, hq⟩
        simp at hq
      · rcases h with ⟨n, hn, hq⟩
        simp at hq
    · intro hneq hok
      simp only [syncService, hpo]
      simp only [syncIngress, hne, Bool.false_eq_true, if_false, hre, if_true, hfr]
      simp only [ipWriteStep, hneq, if_false, hok, if_true]
      exact syncTail_writes_mono _ _ _ _ _ _ _ _ _
        (List.mem_append.mpr (Or.inl (by simp)))
    · intro hneq hnok
      simp only [syncService, hpo]
      simp only [syncIngress, hne, Bool.false_eq_true, if_false, hre, if_true, hfr]
      simp only [ipWriteStep, hneq, if_false, hnok]
      rfl

/-- Synchronizer environment in which the address write-back fails. -/
def exEnvFail : SyncEnv :=
  { refetchOk := true, updateIPOk := false, statusIPOk := true
    statusNodeOk := true, patchOk := true, now := 7 }

/-- The example Policy placed at the empty namespace, where the
synchronizer's owner lookup addresses it. -/
def exPolicyRoot : Policy := { exPolicy with ns := "" }

/-- The derived CiliumEgressGatewayPolicy of `exPolicyRoot`. -/
def exCegpRoot : Cegp := desiredCegp exCtrl exPolicyRoot

/-- The derived Service of `exPolicyRoot` with an allocator-assigned
ingress address. -/
def exSvcIngress : Svc :=
  { desiredSvc exCtrl exPolicyRoot with ingress := ["10.0.0.5"] }

/-- A store on which the whole synchronizer path is reachable. -/
def exStoreSync : Store :=
  { cegps := [exCegpRoot], svcs := [exSvcIngress], policies := [exPolicyRoot] }

/-- C3 witness: with the address differing and its write-back failing,
the synchronizer requeues with a nil error and writes nothing. -/
theorem sync_stale_read_guard_witness :
    syncService exEnvFail exStoreSync exSvcIngress exCegpRoot
      = ⟨exStoreSync, [], [], true, false⟩ :=
  ((sync_stale_read_guard exEnvFail exStoreSync exSvcIngress exCegpRoot).2
    (some exPolicyRoot) exCegpRoot (by decide) (by decide) rfl
    (by decide)).2.2 (by decide) rfl

/-- C4 counterexample: with a sweep interval of 1 second and a marker
300 ms old, the elapsed time is below the exact half interval (600 ms
doubled is below 1000 ms), yet the tick does list the Policies, because
the code's threshold is the integer division 1 / 2 = 0 seconds. -/
theorem sweeper_throttle_exact_half_cex :
    (sweepTick 1 exStoreConverged (some 0) 300).listed = true ∧
    2 * 300 < 1 * 1000 := by
  exact ⟨rfl, by decide⟩

/-- C4 amended: a sweep tick performs zero store reads exactly when the
elapsed time since the marker is less than `seconds / 2` seconds under
Go integer division — the exact half only for even intervals — and once
that floor-half threshold has elapsed the tick lists every Policy. -/
theorem sweeper_throttle_floor_half (seconds : Nat) (st : Store)
    (t nowMs : Nat) :
    ((sweepTick seconds st (some t) nowMs).listed = false ↔
      nowMs - t < seconds / 2 * 1000) ∧
    ((sweepTick seconds st (some t) nowMs).listed = true →
      (sweepTick seconds st (some t) nowMs).reconciled = st.policies) ∧
    (seconds % 2 = 0 →
      ((sweepTick seconds st (some t) nowMs).listed = false ↔
        2 * (nowMs - t) < seconds * 1000)) := by
  have hred : sweepTick seconds st (some t) nowMs
      = if nowMs - t < seconds / 2 * 1000 then ⟨false, [], some t⟩
        else ⟨true, st.policies, some t⟩ := rfl
  rw [hred]
  by_cases h : nowMs - t < seconds / 2 * 1000
  · rw [if_pos h]
    exact ⟨⟨fun _ => h, fun _ => rfl⟩, fun hc => by simp at hc,
      fun hev => ⟨fun _ => by omega, fun _ => rfl⟩⟩
  · rw [if_neg h]
    exact ⟨⟨fun hc => by simp at hc, fun h2 => absurd h2 h⟩, fun _ => rfl,
      fun hev => ⟨fun hc => by simp at hc,
        fun h2 => absurd (by omega : nowMs - t < seconds / 2 * 1000) h⟩⟩

/-- C4 witness for the amended statement: a 60-second interval skips at
29 s elapsed and lists every Policy at 30 s elapsed. -/
theorem sweeper_throttle_floor_half_witness :
    (sweepTick 60 exStoreConverged (some 0) 29000).listed = false ∧
    (sweepTick 60 exStoreConverged (some 0) 30000).reconciled
      = exStoreConverged.policies ∧
    (2 * (29000 - 0) < 60 * 1000) :=
  ⟨(sweeper_throttle_floor_half 60 exStoreConverged 0 29000).1.mpr (by decide),
   (sweeper_throttle_floor_half 60 exStoreConverged 0 30000).2.1 rfl,
   ((sweeper_throttle_floor_half 60 exStoreConverged 0 29000).2.2 rfl).mp
     ((sweeper_throttle_floor_half 60 exStoreConverged 0 29000).1.mpr (by decide))⟩

/-! Event Router lemmas. -/

lemma findObjects_go (refs : List OwnerRef) (objNs : String) (acc : List Req) :
    refs.foldl (fun acc o =>
        if o.kind = "HAEgressGatewayPolicy" then acc ++ [⟨o.name, objNs⟩] else acc) acc
      = acc ++ (refs.filter (fun o => o.kind == "HAEgressGatewayPolicy")).map
          (fun o => (⟨o.name, objNs⟩ : Req)) := by
  induction refs generalizing acc with
  | nil => simp
  | cons o rest ih =>
    simp only [List.foldl_cons, List.filter_cons]
    by_cases h : o.kind = "HAEgressGatewayPolicy"
    · simp [h, ih]
    · simp [h, ih]

lemma findObjects_eq (refs : List OwnerRef) (objNs : String) :
    findObjectsForHaegressGatewayPolicy refs objNs
      = (refs.filter (fun o => o.kind == "HAEgressGatewayPolicy")).map
          (fun o => (⟨o.name, objNs⟩ : Req)) := by
  unfold findObjectsForHaegressGatewayPolicy
  simpa using findObjects_go refs objNs []

/-- C5 counterexample: an owner-reference list with two entries of kind
HAEgressGatewayPolicy makes the Event Router emit two reconcile
requests, so it does not emit at most one request for every
owner-reference list. -/
theorem event_router_single_request_cex :
    (findObjectsForHaegressGatewayPolicy
      [⟨"HAEgressGatewayPolicy", "a", "u1", true⟩,
       ⟨"HAEgressGatewayPolicy", "b", "u2", false⟩] "ns1").length = 2 ∧
    ¬ (findObjectsForHaegressGatewayPolicy
      [⟨"HAEgressGatewayPolicy", "a", "u1", true⟩,
       ⟨"HAEgressGatewayPolicy", "b", "u2", false⟩] "ns1").length ≤ 1 := by
  exact ⟨rfl, by decide⟩

/-- C5 amended: the Event Router emits one reconcile request per owner
reference of kind HAEgressGatewayPolicy — zero when none is present, and
exactly one (for that reference's name and the object's namespace) when
exactly one such reference is present, which is the case for every
object this controller creates. -/
theorem event_router_requests (refs : List OwnerRef) (objNs : String) :
    (findObjectsForHaegressGatewayPolicy refs objNs).length
      = (refs.filter (fun o => o.kind == "HAEgressGatewayPolicy")).length ∧
    ((∀ o ∈ refs, o.kind ≠ "HAEgressGatewayPolicy") →
      findObjectsForHaegressGatewayPolicy refs objNs = []) ∧
    (∀ o, refs.filter (fun o => o.kind == "HAEgressGatewayPolicy") = [o] →
      findObjectsForHaegressGatewayPolicy refs objNs = [⟨o.name, objNs⟩]) := by
  refine ⟨?_, ?_, ?_⟩
  · rw [findObjects_eq, List.length_map]
  · intro h
    rw [findObjects_eq]
    have : refs.filter (fun o => o.kind == "HAEgressGatewayPolicy") = [] := by
      rw [List.filter_eq_nil_iff]
      intro o ho
      simpa using h o ho
    rw [this]
    rfl
  · intro o h
    rw [findObjects_eq, h]
    rfl

/-- C5 witness for the amended statement: a single matching reference
among foreign ones yields exactly its request; a list without matching
references yields none. -/
theorem event_router_requests_witness :
    findObjectsForHaegressGatewayPolicy
        [⟨"ReplicaSet", "rs", "u9", true⟩,
         ⟨"HAEgressGatewayPolicy", "web", "u1", false⟩] "egress-system"
      = [⟨"web", "egress-system"⟩] ∧
    findObjectsForHaegressGatewayPolicy [⟨"ReplicaSet", "rs", "u9", true⟩] "ns2"
      = [] :=
  ⟨(event_router_requests
      [⟨"ReplicaSet", "rs", "u9", true⟩,
       ⟨"HAEgressGatewayPolicy", "web", "u1", false⟩] "egress-system").2.2
      ⟨"HAEgressGatewayPolicy", "web", "u1", false⟩ (by decide),
   (event_router_requests [⟨"ReplicaSet", "rs", "u9", true⟩] "ns2").2.1
      (by decide)⟩

/-! Lemmas tracking the egress IP of a stored object through the
synchronizer's tail. -/

lemma patchCegpObj_name (n host : String) (c : Cegp) :
    (patchCegpObj n host c).name = c.name := by
  unfold patchCegpObj
  split <;> rfl

lemma patchCegpObj_ipOf (n host : String) (c : Cegp) :
    ipOf (patchCegpObj n host c) = ipOf c := by
  unfold patchCegpObj
  split <;> rfl

lemma findCegp_map_patch (l : List Cegp) (n host m : String) :
    (findCegp (l.map (patchCegpObj n host)) m).map ipOf
      = (findCegp l m).map ipOf := by
  induction l with
  | nil => rfl
  | cons c cs ih =>
    simp only [List.map_cons, findCegp, patchCegpObj_name]
    split
    · simp [patchCegpObj_ipOf]
    · exact ih

lemma patch_getCegp_ipOf (st : Store) (n host m : String) :
    (getCegp (patchCegpInStore st n host) m).map ipOf
      = (getCegp st m).map ipOf :=
  findCegp_map_patch st.cegps n host m

lemma nodeStatusStep_getCegp (env : SyncEnv) (st : Store) (pol : Policy)
    (ch : String) (w : List Write) (n : String) :
    getCegp (nodeStatusStep env st pol ch w).1 n = getCegp st n := by
  unfold nodeStatusStep
  split
  · rfl
  · split <;> rfl

lemma ipStatusStep_getCegp (env : SyncEnv) (st : Store) (pol : Policy)
    (ip : String) (n : String) :
    getCegp (ipStatusStep env st pol ip).1 n = getCegp st n := by
  unfold ipStatusStep
  split
  · rfl
  · split <;> rfl

lemma syncTail_store_ipOf (env : SyncEnv) (st : Store) (svc : Svc)
    (cegp : Cegp) (pol : Policy) (ph ch : String) (w : List Write)
    (n : String) :
    (getCegp (syncTail env st svc cegp pol ph ch w).store n).map ipOf
      = (getCegp st n).map ipOf := by
  simp only [syncTail]
  split
  · rfl
  · split
    · rw [nodeStatusStep_getCegp]
    · split
      · rw [patch_getCegp_ipOf, nodeStatusStep_getCegp]
      · rw [nodeStatusStep_getCegp]

/-- Across a full synchronizer run that reaches the address write with
every relevant store call succeeding, the stored object ends up carrying
the Service's first ingress address — whether or not it already did. -/
lemma syncService_store_ipOf (env : SyncEnv) (st : Store) (svc : Svc)
    (cegp : Cegp) (po : Option Policy) (fresh : Cegp)
    (hpo : syncOwnerLookup st cegp = some po)
    (hing : svc.ingress ≠ [])
    (hre : env.refetchOk = true)
    (hok : env.updateIPOk = true)
    (hfr : getCegp st cegp.name = some fresh) :
    (getCegp (syncService env st svc cegp).store cegp.name).map ipOf
      = some (svc.ingress.headD "") := by
  have hne : svc.ingress.isEmpty = false := by
    cases hsv : svc.ingress with
    | nil => exact absurd hsv hing
    | cons a t => rfl
  simp only [syncService, hpo]
  simp only [syncIngress, hne, Bool.false_eq_true, if_false, hre, if_true, hfr]
  by_cases heq : ipOf fresh = svc.ingress.headD ""
  · simp only [ipWriteStep, heq, if_true]
    rw [syncTail_store_ipOf, ipStatusStep_getCegp, hfr]
    simp [heq]
  · simp only [ipWriteStep, heq, if_false, hok, if_true]
    rw [syncTail_store_ipOf, ipStatusStep_getCegp]
    have hn : (setCegpIP fresh (svc.ingress.headD "")).name = cegp.name := by
      simpa [setCegpIP] using getCegp_name hfr
    rw [← hn, getCegp_putCegp_self]
    rfl

/-- The not-found branch when no Service exists yet: create and emit. -/
lemma updateOrCreateCegp_create_nosvc (r : Ctrl) (env : SyncEnv)
    (st : Store) (p : Policy)
    (hnone : getCegp st (desiredCegp r p).name = none)
    (hsvc : getSvc (putCegp st (desiredCegp r p)) (targetNs r p) p.name = none) :
    updateOrCreateCegp r env st p
      = ⟨putCegp st (desiredCegp r p), [Write.createCegp (desiredCegp r p)],
         [Ev.createdCegp (desiredCegp r p).name], false⟩ := by
  simp only [updateOrCreateCegp, hnone, hsvc]

/-- The not-found branch when a Service already exists: create, emit,
then run the Feedback Synchronizer against that Service and the freshly
created object, appending its writes, events and error. -/
lemma updateOrCreateCegp_create_sync (r : Ctrl) (env : SyncEnv)
    (st : Store) (p : Policy) (svc : Svc)
    (hnone : getCegp st (desiredCegp r p).name = none)
    (hsvc : getSvc (putCegp st (desiredCegp r p)) (targetNs r p) p.name = some svc) :
    updateOrCreateCegp r env st p
      = ⟨(syncService env (putCegp st (desiredCegp r p)) svc (desiredCegp r p)).store,
         Write.createCegp (desiredCegp r p)
           :: (syncService env (putCegp st (desiredCegp r p)) svc (desiredCegp r p)).writes,
         Ev.createdCegp (desiredCegp r p).name
           :: (syncService env (putCegp st (desiredCegp r p)) svc (desiredCegp r p)).events,
         (syncService env (putCegp st (desiredCegp r p)) svc (desiredCegp r p)).err⟩ := by
  simp only [updateOrCreateCegp, hnone, hsvc]

/-- C6 amended.  When the CiliumEgressGatewayPolicy under its
deterministic name is not found, the Drift Reconciler creates it and
emits the Created event on the Policy; if a Service for this Policy
already exists in the target namespace, it immediately runs the
Feedback Synchronizer against that Service and the freshly created
object.  The recreated object regains the address the Service already
carries only when the synchronizer's fetch of the owning Policy — which
is addressed at the CiliumEgressGatewayPolicy's own, empty, namespace —
succeeds (and the refetch and write succeed); when that fetch fails the
synchronizer returns early and nothing beyond the create is written. -/
theorem cegp_create_then_sync (r : Ctrl) (env : SyncEnv) (st : Store)
    (p : Policy) (hnone : getCegp st (desiredCegp r p).name = none) :
    (getSvc (putCegp st (desiredCegp r p)) (targetNs r p) p.name = none →
      updateOrCreateCegp r env st p
        = ⟨putCegp st (desiredCegp r p), [Write.createCegp (desiredCegp r p)],
           [Ev.createdCegp (desiredCegp r p).name], false⟩) ∧
    (∀ svc, getSvc (putCegp st (desiredCegp r p)) (targetNs r p) p.name = some svc →
      updateOrCreateCegp r env st p
        = ⟨(syncService env (putCegp st (desiredCegp r p)) svc (desiredCegp r p)).store,
           Write.createCegp (desiredCegp r p)
             :: (syncService env (putCegp st (desiredCegp r p)) svc (desiredCegp r p)).writes,
           Ev.createdCegp (desiredCegp r p).name
             :: (syncService env (putCegp st (desiredCegp r p)) svc (desiredCegp r p)).events,
           (syncService env (putCegp st (desiredCegp r p)) svc (desiredCegp r p)).err⟩) ∧
    (∀ svc, getSvc (putCegp st (desiredCegp r p)) (targetNs r p) p.name = some svc →
      syncOwnerLookup (putCegp st (desiredCegp r p)) (desiredCegp r p) = none →
      updateOrCreateCegp r env st p
        = ⟨putCegp st (desiredCegp r p), [Write.createCegp (desiredCegp r p)],
           [Ev.createdCegp (desiredCegp r p).name], false⟩) ∧
    (∀ svc po, getSvc (putCegp st (desiredCegp r p)) (targetNs r p) p.name = some svc →
      syncOwnerLookup (putCegp st (desiredCegp r p)) (desiredCegp r p) = some po →
      env.refetchOk = true → env.updateIPOk = true → svc.ingress ≠ [] →
      (getCegp (updateOrCreateCegp r env st p).store (desiredCegp r p).name).map ipOf
        = some (svc.ingress.headD "")) := by
  refine ⟨?_, ?_, ?_, ?_⟩
  · exact updateOrCreateCegp_create_nosvc r env st p hnone
  · exact fun svc hsvc => updateOrCreateCegp_create_sync r env st p svc hnone hsvc
  · intro svc hsvc hlook
    rw [updateOrCreateCegp_create_sync r env st p svc hnone hsvc,
        syncService_owner_none env _ svc _ hlook]
  · intro svc po hsvc hpo hre hok hing
    rw [updateOrCreateCegp_create_sync r env st p svc hnone hsvc]
    exact syncService_store_ipOf env _ svc (desiredCegp r p) po (desiredCegp r p)
      hpo hing hre hok (getCegp_putCegp_self st (desiredCegp r p))

/-- The example Service with an allocator-assigned address, for the
Policy living in namespace default. -/
def exSvcWithIP : Svc := { desiredSvc exCtrl exPolicy with ingress := ["10.0.0.5"] }

/-- A store where the CiliumEgressGatewayPolicy was deleted but the
Service survives with its address. -/
def exStoreRecreate : Store :=
  { cegps := [], svcs := [exSvcWithIP], policies := [exPolicy] }

/-- C6 counterexample: the Policy lives in namespace default, its
Service already carries 10.0.0.5, the CiliumEgressGatewayPolicy is
missing; reconciling recreates it and runs the synchronizer, yet the
recreated object's address stays empty (the owner-policy fetch at the
empty namespace fails), so it does not regain the Service's address. -/
theorem cegp_recreate_regain_cex :
    getCegp exStoreRecreate (desiredCegp exCtrl exPolicy).name = none ∧
    getSvc (putCegp exStoreRecreate (desiredCegp exCtrl exPolicy))
        (targetNs exCtrl exPolicy) exPolicy.name = some exSvcWithIP ∧
    exSvcWithIP.ingress = ["10.0.0.5"] ∧
    (getCegp (updateOrCreateCegp exCtrl exEnv exStoreRecreate exPolicy).store
        (desiredCegp exCtrl exPolicy).name).map ipOf = some "" ∧
    ("" : String) ≠ "10.0.0.5" := by
  exact ⟨rfl, rfl, rfl, rfl, by decide⟩

/-- A store where the root-namespace Policy's CiliumEgressGatewayPolicy
was deleted but the Service survives with its address. -/
def exStoreRecreateRoot : Store :=
  { cegps := [], svcs := [exSvcIngress], policies := [exPolicyRoot] }

/-- C6 witness: for the Policy at the empty namespace the owner fetch
succeeds and the recreated object does regain 10.0.0.5. -/
theorem cegp_create_then_sync_witness :
    (getCegp (updateOrCreateCegp exCtrl exEnv exStoreRecreateRoot exPolicyRoot).store
        (desiredCegp exCtrl exPolicyRoot).name).map ipOf = some "10.0.0.5" :=
  (cegp_create_then_sync exCtrl exEnv exStoreRecreateRoot exPolicyRoot
    (by decide)).2.2.2 exSvcIngress (some exPolicyRoot) (by decide) (by decide)
    rfl rfl (by decide)

/-- C7 amended.  When the Service is found and controlled by the
Policy, the Drift Reconciler compares only the selector: if it is equal
nothing is written, and if it differs the reconciler writes the whole
freshly built desired Service object back (an update, not a
field-scoped patch, so fields other than the selector are overwritten
with their desired values; only the status block survives as a
subresource) and emits no event. -/
theorem service_selector_update (r : Ctrl) (st : Store) (p : Policy)
    (found : Svc)
    (hs : getSvc st (desiredSvc r p).ns (desiredSvc r p).name = some found)
    (hown : isControlledBy found.ownerRefs p.uid = true) :
    (found.selector = (desiredSvc r p).selector →
      updateOrCreateSvc r st p = ⟨st, [], [], false⟩) ∧
    (found.selector ≠ (desiredSvc r p).selector →
      updateOrCreateSvc r st p
        = ⟨putSvc st { desiredSvc r p with ingress := found.ingress },
           [Write.updateSvc { desiredSvc r p with ingress := found.ingress }],
           [], false⟩) := by
  constructor
  · exact fun hsel => updateOrCreateSvc_noop r st p found hs hown hsel
  · intro hsel
    simp only [updateOrCreateSvc, hs]
    simp [hown, hsel]

/-- A stored Service owned by the Policy whose selector was wiped and
which carries a hand-added annotation. -/
def exSvcDrifted : Svc :=
  { desiredSvc exCtrl exPolicy with
      selector := [], annots := [("hand-edited", "yes")] }

/-- A store holding the drifted Service. -/
def exStoreDrifted : Store :=
  { cegps := [exCegpOwned], svcs := [exSvcDrifted], policies := [exPolicy] }

/-- C7 counterexample: the drifted Service is owned and its selector
differs, yet the reconciler emits no event, and the write replaces the
Service's hand-added annotation (a field other than the selector) with
the desired empty annotation set. -/
theorem service_selector_update_cex :
    isControlledBy exSvcDrifted.ownerRefs exPolicy.uid = true ∧
    exSvcDrifted.selector ≠ (desiredSvc exCtrl exPolicy).selector ∧
    (updateOrCreateSvc exCtrl exStoreDrifted exPolicy).events = [] ∧
    (getSvc (updateOrCreateSvc exCtrl exStoreDrifted exPolicy).store
        "egress-system" "web").map (fun s => s.annots) = some [] ∧
    exSvcDrifted.annots = [("hand-edited", "yes")] := by
  exact ⟨rfl, by decide, rfl, rfl, rfl⟩

/-- C7 witness for the amended statement: the equal-selector branch on
the converged store and the differing-selector branch on the drifted
store. -/
theorem service_selector_update_witness :
    updateOrCreateSvc exCtrl exStoreConverged exPolicy
      = ⟨exStoreConverged, [], [], false⟩ ∧
    updateOrCreateSvc exCtrl exStoreDrifted exPolicy
      = ⟨putSvc exStoreDrifted
           { desiredSvc exCtrl exPolicy with ingress := exSvcDrifted.ingress },
         [Write.updateSvc
           { desiredSvc exCtrl exPolicy with ingress := exSvcDrifted.ingress }],
         [], false⟩ :=
  ⟨(service_selector_update exCtrl exStoreConverged exPolicy exSvcOwned
      (by decide) (by decide)).1 (by decide),
   (service_selector_update exCtrl exStoreDrifted exPolicy exSvcDrifted
      (by decide) (by decide)).2 (by decide)⟩

/-- C8.  Both watch predicates installed by SetupWithManager pass a
delete event and reject create, update and generic events; a delete of
a derived object carrying the controller's owner reference is routed by
the Event Router to exactly the owning Policy's request. -/
theorem watch_filters_delete_only :
    serviceWatchPred .delete = true ∧ cegpWatchPred .delete = true ∧
    serviceWatchPred .create = false ∧ serviceWatchPred .update = false ∧
    serviceWatchPred .generic = false ∧
    cegpWatchPred .create = false ∧ cegpWatchPred .update = false ∧
    cegpWatchPred .generic = false ∧
    findObjectsForHaegressGatewayPolicy [ctrlRef exPolicy] "egress-system"
      = [⟨exPolicy.name, "egress-system"⟩] := by
  exact ⟨rfl, rfl, rfl, rfl, rfl, rfl, rfl, rfl, rfl⟩

/-- C9.  A sweep tick with no recorded activity marker performs no
Policy list and reconciles nothing: it stores the current time as the
marker and skips; and with the marker so initialized, a later tick
lists exactly when the floor-half-interval threshold has elapsed since
that initialization. -/
theorem sweeper_first_tick_initializes (seconds : Nat) (st : Store)
    (nowMs : Nat) :
    sweepTick seconds st none nowMs = ⟨false, [], some nowMs⟩ ∧
    (∀ st2 d, seconds / 2 * 1000 ≤ d →
      (sweepTick seconds st2 (some nowMs) (nowMs + d)).listed = true) ∧
    (∀ st2 later, (sweepTick seconds st2 (some nowMs) later).listed = true →
      seconds / 2 * 1000 ≤ later - nowMs) := by
  refine ⟨rfl, ?_, ?_⟩
  · intro st2 d hd
    have hred : sweepTick seconds st2 (some nowMs) (nowMs + d)
        = if nowMs + d - nowMs < seconds / 2 * 1000 then ⟨false, [], some nowMs⟩
          else ⟨true, st2.policies, some nowMs⟩ := rfl
    rw [hred, if_neg (by omega)]
  · intro st2 later h
    by_cases hc : later - nowMs < seconds / 2 * 1000
    · have hfalse : (sweepTick seconds st2 (some nowMs) later).listed = false := by
        have hred : sweepTick seconds st2 (some nowMs) later
            = if later - nowMs < seconds / 2 * 1000 then ⟨false, [], some nowMs⟩
              else ⟨true, st2.policies, some nowMs⟩ := rfl
        rw [hred, if_pos hc]
      rw [hfalse] at h
      simp at h
    · omega

/-- C9 witness: the very first tick initializes the marker and skips; a
tick one full interval later lists. -/
theorem sweeper_first_tick_initializes_witness :
    sweepTick 60 exStoreConverged none 5000 = ⟨false, [], some 5000⟩ ∧
    (sweepTick 60 exStoreConverged (some 5000) (5000 + 60000)).listed = true :=
  ⟨(sweeper_first_tick_initializes 60 exStoreConverged 5000).1,
   (sweeper_first_tick_initializes 60 exStoreConverged 5000).2.1
     exStoreConverged 60000 (by decide)⟩

/-- C10.  Every request the Event Router emits carries the watched
object's own namespace (an owner reference carries none); the
controller-built CiliumEgressGatewayPolicy carries the empty namespace;
and the Feedback Synchronizer addresses the owning Policy at the
CiliumEgressGatewayPolicy's own namespace — returning untouched when no
Policy exists there, and finding exactly the Policy stored there
otherwise. -/
theorem namespace_addressing (refs : List OwnerRef) (objNs : String)
    (r : Ctrl) (p : Policy) (env : SyncEnv) (st : Store) (svc : Svc)
    (cegp : Cegp) :
    (∀ req ∈ findObjectsForHaegressGatewayPolicy refs objNs, req.ns = objNs) ∧
    (desiredCegp r p).ns = "" ∧
    (∀ oref, cegp.ownerRefs.find? (fun o => o.kind == "HAEgressGatewayPolicy")
        = some oref →
      (getPolicy st cegp.ns oref.name = none →
        syncService env st svc cegp = ⟨st, [], [], false, false⟩) ∧
      (∀ q, getPolicy st cegp.ns oref.name = some q →
        syncOwnerLookup st cegp = some (some q))) := by
  refine ⟨?_, rfl, ?_⟩
  · intro req hreq
    rw [findObjects_eq] at hreq
    rcases List.mem_map.mp hreq with ⟨o, ho, hoe⟩
    rw [← hoe]
  · intro oref href
    constructor
    · intro hget
      apply syncService_owner_none
      simp only [syncOwnerLookup, href, hget]
    · intro q hget
      simp only [syncOwnerLookup, href, hget]

/-- C10 witness: the built object's namespace is empty, and the
synchronizer leaves the store of the namespace-default Policy untouched
because no Policy exists at the empty namespace. -/
theorem namespace_addressing_witness :
    (desiredCegp exCtrl exPolicy).ns = "" ∧
    syncService exEnv exStoreRecreate exSvcWithIP (desiredCegp exCtrl exPolicy)
      = ⟨exStoreRecreate, [], [], false, false⟩ :=
  ⟨(namespace_addressing [] "" exCtrl exPolicy exEnv exStoreRecreate
      exSvcWithIP (desiredCegp exCtrl exPolicy)).2.1,
   ((namespace_addressing [] "" exCtrl exPolicy exEnv exStoreRecreate
      exSvcWithIP (desiredCegp exCtrl exPolicy)).2.2
      (ctrlRef exPolicy) (by decide)).1 (by decide)⟩

end HAEgress
